import Mathlib

/-!
Shallow embedding of the launch-and-attach pipeline of protongdb
(src/protongdb.py).  Pure string helpers are translated directly.  The
stateful tail of `main` (helper download, script-file write, confirmation
gate, process spawn, pid polling, debugger session, cleanup) is embedded as
a function that returns the ordered trace of externally visible events
together with how the run terminated.  Environments are modelled as
`String → Option String`: `none` is an unset variable, mirroring Python's
`dict.get` returning `None`.
-/

namespace Protongdb

/-- Python helper `prepend_args(x, y, delim)` (line 47):
`(y + delim + x) if y else x`.  The second argument comes from
`env_vars.get(...)`, so it may be `None`; Python truthiness sends both
`None` and the empty string to the `else` branch. -/
def prepend_args (x : String) (y : Option String) (delim : String) : String :=
  match y with
  | none => x
  | some s => if s = "" then x else s ++ delim ++ x

/-- Python helper `append_args(x, y, delim)` (line 50):
`(x + delim + y) if y else x`. -/
def append_args (x : String) (y : Option String) (delim : String) : String :=
  match y with
  | none => x
  | some s => if s = "" then x else x ++ delim ++ s

/-- An AppendPath rule instance as `main` writes it (lines 187 and 196):
`env_vars[V] = append_args(v, env_vars.get(V), d)`.  `v` is the value the
rule carries, the existing value of `V` is looked up in the working copy. -/
def applyAppendPath (env : String → Option String) (V v d : String) :
    String → Option String :=
  fun q => if q = V then some (append_args v (env V) d) else env q

/-- A PrependPath rule instance as `main` writes it (lines 189 and 199):
`env_vars[V] = prepend_args(v, env_vars.get(V), d)`. -/
def applyPrependPath (env : String → Option String) (V v d : String) :
    String → Option String :=
  fun q => if q = V then some (prepend_args v (env V) d) else env q

/-- A SetIfAbsent rule instance as `main` writes it (lines 188-200):
`env_vars.setdefault(V, v)`.  Python's `setdefault` writes `v` only when
the key is absent; a present binding is kept, even when its value is the
empty string. -/
def applySetdefault (env : String → Option String) (V v : String) :
    String → Option String :=
  fun q => if q = V then some ((env V).getD v) else env q

/-- Failure raised by the selection branch of `main` (lines 144-146): a
reply that does not parse as an integer, or parses outside the candidate
range, logs "Invalid app configuration." and aborts the run. -/
inductive SelectError where
  | invalidSelection
  deriving DecidableEq

/-- Launch-configuration selection (lines 130-147).  When the candidate
list has exactly one element it is taken without prompting; otherwise the
candidates are printed and one line is read.  `inputVal` stands for
`safe_cast(input(...), int)` (lines 59-63): `some i` when the reply parses
as a Python integer, `none` otherwise.  The code has no retry loop: a bad
reply ends the run at once. -/
def selectConfig {α : Type} (configs : List α) (inputVal : Option Int) :
    Except SelectError α :=
  match configs with
  | [c] => Except.ok c
  | _ =>
    match inputVal with
    | none => Except.error SelectError.invalidSelection
    | some i =>
      if h : 0 ≤ i ∧ i < (configs.length : Int) then
        Except.ok (configs.get ⟨i.toNat, by omega⟩)
      else
        Except.error SelectError.invalidSelection

/-- Outcome of the pid-polling loop (lines 207-219). -/
inductive PidResult where
  | found (pid : Nat)
  | timedOut
  | parseCrash
  deriving DecidableEq

/-- Pid polling loop (lines 207-219).  `table step` is the list of live
pids whose (15-character-truncated) name matches the target at poll number
`step`; `fuel` is how many polls the three-second wall-clock deadline still
admits, checked before each poll as in `while not pid and time.time() <
timeout`.  An empty table makes `pidof` exit nonzero, the caught
`CalledProcessError` sets `pid = None` and the loop retries.  A single pid
parses with `int(...)`.  Two or more pids make `pidof` print them
space-separated, so `int(...)` raises `ValueError`, which the `except`
clause does not catch.  The `while not pid` guard would also retry on a
parsed pid of 0. -/
def resolvePid (table : Nat → List Nat) : Nat → Nat → PidResult
  | 0, _ => PidResult.timedOut
  | fuel + 1, step =>
    match table step with
    | [] => resolvePid table fuel (step + 1)
    | [p] => if p = 0 then resolvePid table fuel (step + 1) else PidResult.found p
    | _ :: _ :: _ => PidResult.parseCrash

/-- Externally visible actions of the tail of `main` (lines 151-223), in
program order. -/
inductive Event where
  | fetchHelper
  | writeScriptFile
  | spawn (argv : List String)
  | gdbCall (pid : Nat)
  | kill (pid : Nat)
  | removeScriptFile
  deriving DecidableEq

/-- How a run of the tail of `main` ends. -/
inductive RunExit where
  | userAborted
  | processNotFound
  | uncaughtException
  | completed
  deriving DecidableEq

/-- The confirmation gate (lines 182-184):
`confirm = input(...).upper()`, abort when the reply is non-empty and its
first character is `N`.  Only the first character of the upper-cased reply
is inspected, so the gate is the upper-case of the reply's first
character compared against `N`. -/
def pyAborts (confirm : String) : Bool :=
  !confirm.isEmpty && (confirm.front.toUpper == 'N')

/-- The tail of `main` from the helper download onward (lines 151-223),
as a trace of events plus an exit.  Parameters: `protonInstall` is
`proton_app.install_path`, `gameInstall` is `game_app.install_path`,
`launchExec` the selected configuration's executable (line 168 joins the
two with `/`), `configArgs`/`userArgs` the configuration's default
arguments and the caller-supplied extras (line 170), `confirm` the reply
to the confirmation prompt, `table`/`pollBudget` the process-table history
and poll budget for `resolvePid`, and `gdbRaises` whether the
`subprocess.call(["gdb", ...])` invocation itself raises (for example the
gdb binary is missing), in which case the exception propagates and the
lines after it never run. -/
def mainFromFetch (protonInstall gameInstall launchExec : String)
    (configArgs userArgs : List String) (confirm : String)
    (table : Nat → List Nat) (pollBudget : Nat) (gdbRaises : Bool) :
    List Event × RunExit :=
  let pre := [Event.fetchHelper, Event.writeScriptFile]
  if pyAborts confirm then
    (pre, RunExit.userAborted)
  else
    let executablePath := gameInstall ++ "/" ++ launchExec
    let appArgs := configArgs ++ userArgs
    let argv := (protonInstall ++ "/files/bin/wine") :: "steam.exe" ::
      executablePath :: appArgs
    let launched := pre ++ [Event.spawn argv]
    match resolvePid table pollBudget 0 with
    | PidResult.timedOut => (launched, RunExit.processNotFound)
    | PidResult.parseCrash => (launched, RunExit.uncaughtException)
    | PidResult.found pid =>
      if gdbRaises then
        (launched, RunExit.uncaughtException)
      else
        (launched ++ [Event.gdbCall pid, Event.kill pid, Event.removeScriptFile],
          RunExit.completed)

/-- Recognises the `subprocess.Popen` event, the one process creation
attributed to the ProcessLauncher component. -/
def isSpawnEvent : Event → Bool
  | Event.spawn _ => true
  | _ => false

/-- The ProcessLauncher invocations a trace records. -/
def spawnEvents (tr : List Event) : List Event :=
  tr.filter isSpawnEvent

/-- The transient script file `/tmp/.protongdb_args` persists after the
run when it was written and never removed. -/
def scriptFileLeftBehind (tr : List Event) : Bool :=
  tr.contains Event.writeScriptFile && !(tr.contains Event.removeScriptFile)

/-- A base environment holding only `PATH=/usr/bin`, for concrete runs of
the path rules. -/
def baseEnvUsrBin : String → Option String :=
  fun q => if q = "PATH" then some "/usr/bin" else none

/-- A base environment in which `X` is present but bound to the empty
string, for concrete runs of the SetIfAbsent rule. -/
def baseEnvEmptyX : String → Option String :=
  fun q => if q = "X" then some "" else none

/-- C3, counterexample: with base environment `PATH=/usr/bin`, the code's
AppendPath rule `AppendPath("PATH", "/opt/bin", ":")` (line 187 shape)
produces `PATH=/opt/bin:/usr/bin`, not the claimed `/usr/bin:/opt/bin`:
`append_args` is called with the rule's value first and the existing value
second, so the concatenation is value-delimiter-existing. -/
theorem c3_appendPath_counterexample :
    applyAppendPath baseEnvUsrBin "PATH" "/opt/bin" ":" "PATH"
        = some "/opt/bin:/usr/bin"
    ∧ applyAppendPath baseEnvUsrBin "PATH" "/opt/bin" ":" "PATH"
        ≠ some "/usr/bin:/opt/bin" := by
  constructor
  · rfl
  · decide

/-- C3, amended: an AppendPath rule with variable `V`, value `v` and
delimiter `d` sets `V` to `v ++ d ++ existing` when the existing value of
`V` is non-empty (the rule's value ends up in front), and to `v` alone
when `V` is unset or empty. -/
theorem c3_appendPath_amended (env : String → Option String) (V v d : String) :
    (env V = none ∨ env V = some "" → applyAppendPath env V v d V = some v)
    ∧ (∀ e, env V = some e → e ≠ "" →
        applyAppendPath env V v d V = some (v ++ d ++ e)) := by
  constructor
  · rintro (h | h) <;> simp [applyAppendPath, append_args, h]
  · intro e he hne
    simp [applyAppendPath, append_args, he, hne]

/-- C3, witness: the amended AppendPath semantics evaluated on an unset
variable and on the `PATH=/usr/bin` base environment. -/
theorem c3_appendPath_witness :
    applyAppendPath (fun _ => none) "PATH" "/opt/bin" ":" "PATH"
        = some "/opt/bin"
    ∧ applyAppendPath baseEnvUsrBin "PATH" "/opt/bin" ":" "PATH"
        = some ("/opt/bin" ++ ":" ++ "/usr/bin") :=
  ⟨(c3_appendPath_amended (fun _ => none) "PATH" "/opt/bin" ":").1 (Or.inl rfl),
   (c3_appendPath_amended baseEnvUsrBin "PATH" "/opt/bin" ":").2 "/usr/bin"
     (by decide) (by decide)⟩

/-- C4, counterexample: with base environment `PATH=/usr/bin`, the code's
PrependPath rule `PrependPath("PATH", "/opt/bin", ":")` (line 189 shape)
produces `PATH=/usr/bin:/opt/bin`, not the claimed `/opt/bin:/usr/bin`:
`prepend_args` places the existing value first. -/
theorem c4_prependPath_counterexample :
    applyPrependPath baseEnvUsrBin "PATH" "/opt/bin" ":" "PATH"
        = some "/usr/bin:/opt/bin"
    ∧ applyPrependPath baseEnvUsrBin "PATH" "/opt/bin" ":" "PATH"
        ≠ some "/opt/bin:/usr/bin" := by
  constructor
  · rfl
  · decide

/-- C4, amended: a PrependPath rule with variable `V`, value `v` and
delimiter `d` sets `V` to `existing ++ d ++ v` when the existing value of
`V` is non-empty (the rule's value ends up last), and to `v` alone when
`V` is unset or empty. -/
theorem c4_prependPath_amended (env : String → Option String) (V v d : String) :
    (env V = none ∨ env V = some "" → applyPrependPath env V v d V = some v)
    ∧ (∀ e, env V = some e → e ≠ "" →
        applyPrependPath env V v d V = some (e ++ d ++ v)) := by
  constructor
  · rintro (h | h) <;> simp [applyPrependPath, prepend_args, h]
  · intro e he hne
    simp [applyPrependPath, prepend_args, he, hne]

/-- C4, witness: the amended PrependPath semantics evaluated on an unset
variable and on the `PATH=/usr/bin` base environment. -/
theorem c4_prependPath_witness :
    applyPrependPath (fun _ => none) "PATH" "/opt/bin" ":" "PATH"
        = some "/opt/bin"
    ∧ applyPrependPath baseEnvUsrBin "PATH" "/opt/bin" ":" "PATH"
        = some ("/usr/bin" ++ ":" ++ "/opt/bin") :=
  ⟨(c4_prependPath_amended (fun _ => none) "PATH" "/opt/bin" ":").1 (Or.inl rfl),
   (c4_prependPath_amended baseEnvUsrBin "PATH" "/opt/bin" ":").2 "/usr/bin"
     (by decide) (by decide)⟩

/-- C5, counterexample: with `X` present but bound to the empty string,
the code's SetIfAbsent rule (`setdefault`, lines 188-200 shape) keeps the
empty string and does not write the proposed value, contrary to the claim
that an empty variable receives the proposed value. -/
theorem c5_setIfAbsent_counterexample :
    applySetdefault baseEnvEmptyX "X" "proposed" "X" = some ""
    ∧ applySetdefault baseEnvEmptyX "X" "proposed" "X" ≠ some "proposed" := by
  constructor
  · rfl
  · decide

/-- C5, amended: a SetIfAbsent rule writes its proposed value exactly when
the variable is unset (absent from the working copy); any existing binding
is left unchanged, including a binding to the empty string. -/
theorem c5_setIfAbsent_amended (env : String → Option String) (V v : String) :
    (env V = none → applySetdefault env V v V = some v)
    ∧ (∀ s, env V = some s → applySetdefault env V v V = some s) := by
  constructor
  · intro h; simp [applySetdefault, h]
  · intro s h; simp [applySetdefault, h]

/-- C5, witness: the amended SetIfAbsent semantics evaluated on an unset
variable, on a non-empty binding, and on an empty-string binding. -/
theorem c5_setIfAbsent_witness :
    applySetdefault (fun _ => none) "X" "proposed" "X" = some "proposed"
    ∧ applySetdefault baseEnvUsrBin "PATH" "proposed" "PATH" = some "/usr/bin"
    ∧ applySetdefault baseEnvEmptyX "X" "proposed" "X" = some "" :=
  ⟨(c5_setIfAbsent_amended (fun _ => none) "X" "proposed").1 rfl,
   (c5_setIfAbsent_amended baseEnvUsrBin "PATH" "proposed").2 "/usr/bin" (by decide),
   (c5_setIfAbsent_amended baseEnvEmptyX "X" "proposed").2 "" (by decide)⟩

/-- Helper: under a well-formed process-table history (each poll reports
no match or exactly one live pid), the polling loop times out from step
`start` exactly when every poll inside the remaining budget is empty. -/
theorem resolvePid_timedOut_iff (table : Nat → List Nat)
    (hone : ∀ j, table j = [] ∨ ∃ p, 0 < p ∧ table j = [p]) :
    ∀ fuel start, (resolvePid table fuel start = PidResult.timedOut ↔
      ∀ j, j < fuel → table (start + j) = []) := by
  intro fuel
  induction fuel with
  | zero =>
    intro start
    simp [resolvePid]
  | succ n ih =>
    intro start
    rcases hone start with h | ⟨p, hp, h⟩
    · have hstep : resolvePid table (n + 1) start = resolvePid table n (start + 1) := by
        simp [resolvePid, h]
      rw [hstep, ih (start + 1)]
      constructor
      · intro hall j hj
        cases j with
        | zero => simpa using h
        | succ k =>
          have hk := hall k (by omega)
          have e : start + (k + 1) = start + 1 + k := by omega
          rw [e]
          exact hk
      · intro hall j hj
        have e : start + 1 + j = start + (j + 1) := by omega
        rw [e]
        exact hall (j + 1) (by omega)
    · have hfound : resolvePid table (n + 1) start = PidResult.found p := by
        simp [resolvePid, h, hp.ne']
      rw [hfound]
      constructor
      · intro habs
        exact absurd habs (by simp)
      · intro hall
        have h0 := hall 0 (by omega)
        rw [Nat.add_zero, h] at h0
        exact absurd h0 (by simp)

/-- Helper: if poll `start + i` is the first non-empty poll inside the
budget and reports the single live pid `p`, the loop stops there and
returns `p`. -/
theorem resolvePid_found_first (table : Nat → List Nat) :
    ∀ fuel start i p, i < fuel → table (start + i) = [p] → 0 < p →
      (∀ j, j < i → table (start + j) = []) →
      resolvePid table fuel start = PidResult.found p := by
  intro fuel
  induction fuel with
  | zero =>
    intro start i p hi
    exact absurd hi (Nat.not_lt_zero i)
  | succ n ih =>
    intro start i p hi hp hpos hfirst
    cases i with
    | zero =>
      have h0 : table start = [p] := by simpa using hp
      simp [resolvePid, h0, hpos.ne']
    | succ k =>
      have h0 : table start = [] := by simpa using hfirst 0 (Nat.succ_pos k)
      have hstep : resolvePid table (n + 1) start = resolvePid table n (start + 1) := by
        simp [resolvePid, h0]
      rw [hstep]
      refine ih (start + 1) k p (by omega) ?_ hpos ?_
      · have e : start + 1 + k = start + (k + 1) := by omega
        rw [e]
        exact hp
      · intro j hj
        have e : start + 1 + j = start + (j + 1) := by omega
        rw [e]
        exact hfirst (j + 1) (by omega)

/-- C7: with the process table modelled as a step-indexed history in which
each poll reports no match or exactly one live pid, the resolver fails
with the `ProcessNotFound` outcome (`timedOut`) exactly when no poll
inside the deadline's budget finds a match, and it returns `Found` with
the pid of the first non-empty poll, however many empty polls precede it;
every empty poll merely triggers the next attempt. -/
theorem c7_pidResolver_spec (table : Nat → List Nat) (N : Nat)
    (hone : ∀ j, table j = [] ∨ ∃ p, 0 < p ∧ table j = [p]) :
    (resolvePid table N 0 = PidResult.timedOut ↔ ∀ j, j < N → table j = [])
    ∧ (∀ i p, i < N → table i = [p] → (∀ j, j < i → table j = []) →
        resolvePid table N 0 = PidResult.found p) := by
  constructor
  · simpa using resolvePid_timedOut_iff table hone N 0
  · intro i p hi hp hfirst
    have hpos : 0 < p := by
      rcases hone i with h | ⟨q, hq, h⟩
      · rw [hp] at h
        cases h
      · rw [hp] at h
        cases h
        exact hq
    have := resolvePid_found_first table N 0 i p hi (by simpa using hp) hpos
      (by simpa using hfirst)
    exact this

/-- C7, witness: a table empty at poll 0 and holding the live pid 5 at
poll 1 resolves to `found 5` within a budget of 4 polls, and a table that
never matches within a budget of 3 polls times out. -/
theorem c7_pidResolver_witness :
    resolvePid (fun j => if j = 1 then [5] else []) 4 0 = PidResult.found 5
    ∧ resolvePid (fun _ => ([] : List Nat)) 3 0 = PidResult.timedOut := by
  constructor
  · exact (c7_pidResolver_spec (fun j => if j = 1 then [5] else []) 4
      (by
        intro j
        by_cases h : j = 1
        · exact Or.inr ⟨5, by omega, by simp [h]⟩
        · exact Or.inl (by simp [h]))).2 1 5 (by omega) (by simp)
      (by
        intro j hj
        have hj0 : j = 0 := by omega
        simp [hj0])
  · exact (c7_pidResolver_spec (fun _ => ([] : List Nat)) 3
      (fun _ => Or.inl rfl)).1.mpr (fun _ _ => rfl)

/-- C8: at a process-table state where two live processes match the
truncated name (poll 0 reports pids 3 and 4), the `int` parse of the
`pidof` reply raises an uncaught `ValueError`: the resolver yields neither
`found` nor `timedOut`, and the whole run ends with an uncaught exception
rather than a resolved pid or the `ProcessNotFound` report. -/
theorem c8_multi_match_crash :
    resolvePid (fun j => if j = 0 then [3, 4] else []) 3 0 = PidResult.parseCrash
    ∧ (mainFromFetch "/proton" "/game" "game.exe" [] [] ""
        (fun j => if j = 0 then [3, 4] else []) 3 false).2
        = RunExit.uncaughtException
    ∧ (mainFromFetch "/proton" "/game" "game.exe" [] [] ""
        (fun j => if j = 0 then [3, 4] else []) 3 false).2
        ≠ RunExit.processNotFound := by
  refine ⟨rfl, ?_, ?_⟩ <;> decide

/-- C1, counterexample: a run in which the pid is resolved (`found 7`) but
the `gdb` invocation itself raises (`gdbRaises = true`) performs neither
the forceful terminate (`kill 7`) nor the script-file deletion: the
cleanup pair is straight-line code after the debugger call, with no
`try/finally` around it (lines 221-223). -/
theorem c1_no_cleanup_when_gdb_raises :
    resolvePid (fun _ => [7]) 2 0 = PidResult.found 7
    ∧ Event.kill 7 ∉
        (mainFromFetch "/proton" "/game" "app.exe" [] [] "y"
          (fun _ => [7]) 2 true).1
    ∧ Event.removeScriptFile ∉
        (mainFromFetch "/proton" "/game" "app.exe" [] [] "y"
          (fun _ => [7]) 2 true).1
    ∧ scriptFileLeftBehind
        (mainFromFetch "/proton" "/game" "app.exe" [] [] "y"
          (fun _ => [7]) 2 true).1 = true := by
  decide

/-- C1, amended: the cleanup pair (terminate signal to the resolved pid,
then script-file deletion) executes on every path on which the debugger
invocation returns — whatever the session's exit status — but not when the
invocation itself raises: with a resolved pid and a non-raising debugger
call, the run ends with exactly `gdbCall pid`, `kill pid`,
`removeScriptFile`. -/
theorem c1_cleanup_after_debugger_returns (protonInstall gameInstall launchExec :
    String) (configArgs userArgs : List String) (confirm : String)
    (table : Nat → List Nat) (N p : Nat)
    (hc : pyAborts confirm = false)
    (hp : resolvePid table N 0 = PidResult.found p) :
    mainFromFetch protonInstall gameInstall launchExec configArgs userArgs
        confirm table N false
      = ([Event.fetchHelper, Event.writeScriptFile,
          Event.spawn ((protonInstall ++ "/files/bin/wine") :: "steam.exe" ::
            (gameInstall ++ "/" ++ launchExec) :: (configArgs ++ userArgs)),
          Event.gdbCall p, Event.kill p, Event.removeScriptFile],
         RunExit.completed) := by
  simp [mainFromFetch, hc, hp]

/-- C1, witness: the amended cleanup guarantee evaluated on a concrete
confirmed run whose table reports pid 7 at once and whose debugger call
returns. -/
theorem c1_cleanup_witness :
    mainFromFetch "/proton" "/game" "app.exe" ["-a"] ["-b"] "Y"
        (fun _ => [7]) 1 false
      = ([Event.fetchHelper, Event.writeScriptFile,
          Event.spawn (("/proton" ++ "/files/bin/wine") :: "steam.exe" ::
            ("/game" ++ "/" ++ "app.exe") :: (["-a"] ++ ["-b"])),
          Event.gdbCall 7, Event.kill 7, Event.removeScriptFile],
         RunExit.completed) :=
  c1_cleanup_after_debugger_returns "/proton" "/game" "app.exe" ["-a"] ["-b"]
    "Y" (fun _ => [7]) 1 7 (by decide) (by decide)

/-- C2, counterexample: the script file is written before the confirmation
prompt, so a run aborted with reply `n` terminates having created the file
and never removed it. -/
theorem c2_abort_leaves_script_file :
    mainFromFetch "/proton" "/game" "app.exe" [] [] "n" (fun _ => []) 3 false
      = ([Event.fetchHelper, Event.writeScriptFile], RunExit.userAborted)
    ∧ scriptFileLeftBehind
        (mainFromFetch "/proton" "/game" "app.exe" [] [] "n"
          (fun _ => []) 3 false).1 = true := by
  decide

/-- C2, amended: every run reaching the download step writes the script
file, but the file is removed exactly on the runs that end `completed`
(pid resolved and debugger call returned); on user abort, on the
`ProcessNotFound` exit, on the multi-match parse crash, and on a raising
debugger invocation the file is left behind. -/
theorem c2_script_removed_iff_completed (protonInstall gameInstall launchExec :
    String) (configArgs userArgs : List String) (confirm : String)
    (table : Nat → List Nat) (N : Nat) (gdbRaises : Bool) :
    Event.writeScriptFile ∈
        (mainFromFetch protonInstall gameInstall launchExec configArgs
          userArgs confirm table N gdbRaises).1
    ∧ (Event.removeScriptFile ∈
          (mainFromFetch protonInstall gameInstall launchExec configArgs
            userArgs confirm table N gdbRaises).1
        ↔ (mainFromFetch protonInstall gameInstall launchExec configArgs
            userArgs confirm table N gdbRaises).2 = RunExit.completed) := by
  by_cases hc : pyAborts confirm
  · simp [mainFromFetch, hc]
  · cases hr : resolvePid table N 0 <;> cases gdbRaises <;>
      simp [mainFromFetch, hc, hr]

/-- C6, counterexample: a run aborted at the prompt with reply `no` spawns
nothing, yet observable state changes persist: the helper was fetched and
the script file was written before the prompt and is left behind. -/
theorem c6_abort_side_effects_counterexample :
    spawnEvents
        (mainFromFetch "/proton2" "/game2" "other.exe" [] [] "no"
          (fun _ => []) 2 false).1 = []
    ∧ Event.fetchHelper ∈
        (mainFromFetch "/proton2" "/game2" "other.exe" [] [] "no"
          (fun _ => []) 2 false).1
    ∧ scriptFileLeftBehind
        (mainFromFetch "/proton2" "/game2" "other.exe" [] [] "no"
          (fun _ => []) 2 false).1 = true := by
  decide

/-- C6, amended: any reply whose first character upper-cases to `N` makes
the run return before the spawn — ProcessLauncher is never invoked and the
exit is the clean `userAborted` — but the abort is not side-effect free:
the remote helper fetch and the script-file write precede the prompt, and
the script file persists after the aborted run. -/
theorem c6_abort_no_spawn_but_artifacts_persist (protonInstall gameInstall
    launchExec : String) (configArgs userArgs : List String)
    (confirm : String) (table : Nat → List Nat) (N : Nat) (gdbRaises : Bool)
    (hc : pyAborts confirm = true) :
    spawnEvents (mainFromFetch protonInstall gameInstall launchExec
        configArgs userArgs confirm table N gdbRaises).1 = []
    ∧ (mainFromFetch protonInstall gameInstall launchExec configArgs
        userArgs confirm table N gdbRaises).2 = RunExit.userAborted
    ∧ Event.fetchHelper ∈ (mainFromFetch protonInstall gameInstall
        launchExec configArgs userArgs confirm table N gdbRaises).1
    ∧ scriptFileLeftBehind (mainFromFetch protonInstall gameInstall
        launchExec configArgs userArgs confirm table N gdbRaises).1 = true := by
  have htr : mainFromFetch protonInstall gameInstall launchExec configArgs
      userArgs confirm table N gdbRaises
      = ([Event.fetchHelper, Event.writeScriptFile], RunExit.userAborted) := by
    simp [mainFromFetch, hc]
  rw [htr]
  exact ⟨by decide, by decide, by decide, by decide⟩

/-- C6, witness: the amended abort behaviour evaluated on a concrete run
whose confirmation reply is `n`. -/
theorem c6_abort_witness :
    spawnEvents (mainFromFetch "/p" "/g" "x.exe" [] [] "n"
        (fun _ => []) 1 false).1 = []
    ∧ (mainFromFetch "/p" "/g" "x.exe" [] [] "n"
        (fun _ => []) 1 false).2 = RunExit.userAborted
    ∧ Event.fetchHelper ∈ (mainFromFetch "/p" "/g" "x.exe" [] [] "n"
        (fun _ => []) 1 false).1
    ∧ scriptFileLeftBehind (mainFromFetch "/p" "/g" "x.exe" [] [] "n"
        (fun _ => []) 1 false).1 = true :=
  c6_abort_no_spawn_but_artifacts_persist "/p" "/g" "x.exe" [] [] "n"
    (fun _ => []) 1 false (by decide)

/-- C9: every confirmed run (reply not starting with `n`/`N`) records
exactly one ProcessLauncher invocation, whose argument vector is the
runtime's interpreter binary, the fixed bootstrap argument `steam.exe`,
the target executable path, and then the configuration's default
arguments followed by the caller-supplied extras, in that order — on every
downstream outcome (pid found or not, debugger raising or not). -/
theorem c9_spawn_once_with_expected_argv (protonInstall gameInstall
    launchExec : String) (configArgs userArgs : List String)
    (confirm : String) (table : Nat → List Nat) (N : Nat) (gdbRaises : Bool)
    (hc : pyAborts confirm = false) :
    spawnEvents (mainFromFetch protonInstall gameInstall launchExec
        configArgs userArgs confirm table N gdbRaises).1
      = [Event.spawn ((protonInstall ++ "/files/bin/wine") :: "steam.exe" ::
          (gameInstall ++ "/" ++ launchExec) :: (configArgs ++ userArgs))] := by
  cases hr : resolvePid table N 0 <;> cases gdbRaises <;>
    simp [mainFromFetch, hc, hr, spawnEvents, isSpawnEvent]

/-- C9, witness: the single-spawn guarantee evaluated on a concrete
confirmed run with reply `Y`, one default argument and one extra
argument. -/
theorem c9_spawn_once_witness :
    spawnEvents (mainFromFetch "/proton" "/game" "bin/app.exe" ["-w"]
        ["--fs"] "Y" (fun _ => [9]) 2 false).1
      = [Event.spawn (("/proton" ++ "/files/bin/wine") :: "steam.exe" ::
          ("/game" ++ "/" ++ "bin/app.exe") :: (["-w"] ++ ["--fs"]))] :=
  c9_spawn_once_with_expected_argv "/proton" "/game" "bin/app.exe" ["-w"]
    ["--fs"] "Y" (fun _ => [9]) 2 false (by decide)

/-- C10: a singleton candidate list is selected without consulting the
reply at all; with more than one candidate, a reply parsing to `i` with
`0 ≤ i <` length selects candidate `i`, a reply that does not parse as an
integer fails with `invalidSelection`, and a reply parsing outside the
range fails with `invalidSelection` — in every failure case the function
returns at once, with no retry or re-prompt. -/
theorem c10_selector_spec {α : Type} (configs : List α) :
    (∀ c, configs = [c] → ∀ inp, selectConfig configs inp = Except.ok c)
    ∧ (1 < configs.length →
        (∀ i : Int, 0 ≤ i → i < (configs.length : Int) →
          ∃ h : i.toNat < configs.length,
            selectConfig configs (some i)
              = Except.ok (configs.get ⟨i.toNat, h⟩))
        ∧ selectConfig configs none = Except.error SelectError.invalidSelection
        ∧ (∀ i : Int, (i < 0 ∨ (configs.length : Int) ≤ i) →
          selectConfig configs (some i)
            = Except.error SelectError.invalidSelection)) := by
  constructor
  · rintro c rfl inp
    rfl
  · intro hlen
    cases configs with
    | nil => simp at hlen
    | cons a t =>
      cases t with
      | nil => simp at hlen
      | cons b t2 =>
        refine ⟨?_, rfl, ?_⟩
        · intro i h0 hlt
          have hnat : i.toNat < (a :: b :: t2).length := by omega
          refine ⟨hnat, ?_⟩
          simp only [selectConfig]
          rw [dif_pos ⟨h0, hlt⟩]
        · intro i hor
          have hnot : ¬(0 ≤ i ∧ i < ((a :: b :: t2).length : Int)) := by omega
          simp only [selectConfig]
          rw [dif_neg hnot]

/-- C10, witness: the selector evaluated on a singleton list (any reply,
even an unparsable one), and on a three-element list with an in-range
reply, an unparsable reply, and an out-of-range reply. -/
theorem c10_selector_witness :
    selectConfig [0] (none : Option Int) = Except.ok 0
    ∧ selectConfig [10, 20, 30] (some 1) = Except.ok 20
    ∧ selectConfig [10, 20, 30] (none : Option Int)
        = Except.error SelectError.invalidSelection
    ∧ selectConfig [10, 20, 30] (some 5)
        = Except.error SelectError.invalidSelection := by
  refine ⟨(c10_selector_spec [0]).1 0 rfl none, ?_, ?_, ?_⟩
  · obtain ⟨h, e⟩ := ((c10_selector_spec [10, 20, 30]).2 (by decide)).1 1
      (by decide) (by decide)
    exact e
  · exact ((c10_selector_spec [10, 20, 30]).2 (by decide)).2.1
  · exact ((c10_selector_spec [10, 20, 30]).2 (by decide)).2.2 5
      (Or.inr (by decide))

end Protongdb
